import Mathlib

/-!
# strax-faucet: admission control of `/api/claim`

A shallow embedding of `internal/server/middleware.go` (client-IP resolution and the
dual-key TTL limiter) together with the parts of `dto.go` and `server.go` it touches.

Conventions of the embedding

* A Go `string` is a `List Char` (`Str`): header values are taken to be valid UTF-8, so
  that `strings.TrimSpace`, which works on runes, and the byte-oriented functions of
  package `net`, which only look at ASCII bytes, agree on the same sequence.
* A Go `net.IP` (a byte slice) is a `List Nat` of bytes; `nil` is `[]`.
* A Go `time.Duration` (int64 nanoseconds) is an `Int`.
* A Go expression that can panic (slice indexing) is evaluated in `Option`; `none` is the
  panic.
* Functions of the Go standard library (`strings`, `bytes`, `net`, `time`) are transcribed
  from the Go sources at the behaviour of Go 1.22.
-/

namespace Faucet

/-- A Go string. -/
abbrev Str := List Char

/-! ## Package `strings` -/

/-- The function `strings.Split(s, sep)` for a separator of one byte: the pieces of `s`
between the occurrences of `sep`; always at least one piece. -/
def Split : Str → Char → List Str
  | [], _ => [[]]
  | c :: cs, sep =>
    if c = sep then [] :: Split cs sep
    else
      match Split cs sep with
      | [] => [[c]]
      | p :: ps => (c :: p) :: ps

/-- The predicate `unicode.IsSpace`. -/
def isSpace (c : Char) : Bool :=
  let n := c.toNat
  n == 0x09 || n == 0x0A || n == 0x0B || n == 0x0C || n == 0x0D || n == 0x20 ||
  n == 0x85 || n == 0xA0 || n == 0x1680 || (0x2000 ≤ n && n ≤ 0x200A) ||
  n == 0x2028 || n == 0x2029 || n == 0x202F || n == 0x205F || n == 0x3000

/-- The function `strings.TrimSpace`: leading and trailing white space removed. -/
def TrimSpace (s : Str) : Str :=
  ((s.dropWhile isSpace).reverse.dropWhile isSpace).reverse

/-- The function `strings.IndexByte`: index of the first `c` in `s`. -/
def IndexByte : Str → Char → Option Nat
  | [], _ => none
  | x :: xs, c => if x = c then some 0 else (IndexByte xs c).map (· + 1)

/-- The function `strings.LastIndexByte`: index of the last `c` in `s`. -/
def LastIndexByte : Str → Char → Option Nat
  | [], _ => none
  | x :: xs, c =>
    match LastIndexByte xs c with
    | some i => some (i + 1)
    | none => if x = c then some 0 else none

/-! ## Package `bytes` -/

/-- The function `bytes.Compare`: lexicographic comparison, result `-1`, `0` or `1`. -/
def bytesCompare : List Nat → List Nat → Int
  | [], [] => 0
  | [], _ :: _ => -1
  | _ :: _, [] => 1
  | a :: as, b :: bs =>
    if a < b then -1 else if b < a then 1 else bytesCompare as bs

/-! ## Package `net` -/

/-- A Go `net.IP`: a slice of bytes, of length 4 or 16 when valid; `nil` is `[]`. -/
abbrev IP := List Nat

/-- The function `net.SplitHostPort`; `none` is a non-nil `err`. -/
def SplitHostPort (hostport : Str) : Option (Str × Str) :=
  -- The port starts after the last colon.
  match LastIndexByte hostport ':' with
  | none => none -- missing port in address
  | some i =>
    if hostport.head? = some '[' then
      -- Expect the first ']' just before the last ':'.
      match IndexByte hostport ']' with
      | none => none -- missing ']' in address
      | some e =>
        if e + 1 = hostport.length then none -- missing port
        else if e + 1 = i then
          let host := (hostport.take e).drop 1
          if (IndexByte (hostport.drop 1) '[').isSome then none
          else if (IndexByte (hostport.drop (e + 1)) ']').isSome then none
          else some (host, hostport.drop (i + 1))
        else none -- too many colons, or missing port
    else
      let host := hostport.take i
      if (IndexByte host ':').isSome then none -- too many colons
      else if (IndexByte hostport '[').isSome then none
      else if (IndexByte hostport ']').isSome then none
      else some (host, hostport.drop (i + 1))

/-- The loop of `netip.parseIPv4Fields` over the bytes that are left: `prev` is the byte
before the current one (`none` at index 0), `val` the octet read so far, `pos` the number
of octets stored, `digLen` the number of digits of the current octet. -/
def parseIPv4Fields.loop : Str → Option Char → Nat → Nat → Nat → List Nat → Option (List Nat)
  | [], _, val, pos, _, fields =>
    if pos < 3 then none -- IPv4 address too short
    else some (fields ++ [val])
  | c :: rest, prev, val, pos, digLen, fields =>
    if '0' ≤ c ∧ c ≤ '9' then
      if digLen = 1 ∧ val = 0 then none -- octet with leading zero
      else
        let val1 := val * 10 + (c.toNat - '0'.toNat)
        if val1 > 255 then none -- value > 255
        else parseIPv4Fields.loop rest (some c) val1 pos (digLen + 1) fields
    else if c = '.' then
      if prev = none ∨ rest = [] ∨ prev = some '.' then none -- field without a digit
      else if pos = 3 then none -- IPv4 address too long
      else parseIPv4Fields.loop rest (some c) 0 (pos + 1) 0 (fields ++ [val])
    else none -- unexpected character

/-- The function `netip.parseIPv4Fields` on `in[off:end]`: the four octets. -/
def parseIPv4Fields (s : Str) : Option (List Nat) :=
  parseIPv4Fields.loop s none 0 0 0 []

/-- Value of a hexadecimal digit. -/
def hexVal (c : Char) : Option Nat :=
  if '0' ≤ c ∧ c ≤ '9' then some (c.toNat - '0'.toNat)
  else if 'a' ≤ c ∧ c ≤ 'f' then some (c.toNat - 'a'.toNat + 10)
  else if 'A' ≤ c ∧ c ≤ 'F' then some (c.toNat - 'A'.toNat + 10)
  else none

/-- The inner loop of `netip.parseIPv6` reading one hexadecimal group: from offset `off`
with accumulator `acc` (a uint32 that stays below `2^20`), the offset reached, the value
and the bytes that follow; `none` when the group has more than four digits. -/
def parseIPv6.hex : Str → Nat → Nat → Option (Nat × Nat × Str)
  | [], off, acc => some (off, acc, [])
  | c :: rest, off, acc =>
    match hexVal c with
    | none => some (off, acc, c :: rest)
    | some v =>
      let acc1 := (acc * 16 + v) % 2 ^ 32
      if off > 3 then none -- more than 4 digits in group
      else if acc1 > 0xFFFF then none -- overflow
      else parseIPv6.hex rest (off + 1) acc1

/-- The main loop of `netip.parseIPv6` (`for i < 16`): `s` is the text left, `ip` the
`i` bytes written so far, `ellipsis` the position of `::` if seen. The result is the
state at the exit of the loop: the text left, the bytes written and the ellipsis. The
first argument bounds the number of iterations; every iteration that goes round adds 2
to `i`, so 8 is enough. -/
def parseIPv6.loop : Nat → Str → List Nat → Option Nat → Option (Str × List Nat × Option Nat)
  | 0, s, ip, ellipsis => some (s, ip, ellipsis)
  | fuel + 1, s, ip, ellipsis =>
    if ¬ ip.length < 16 then some (s, ip, ellipsis)
    else
      match parseIPv6.hex s 0 0 with
      | none => none
      | some (off, acc, s1) =>
        if off = 0 then none -- no digits found
        else if s1.head? = some '.' then
          -- might be in trailing IPv4
          if ellipsis = none ∧ ip.length ≠ 12 then none
          else if ip.length + 4 > 16 then none
          else
            match parseIPv4Fields s with
            | none => none
            | some v4 => some ([], ip ++ v4, ellipsis)
        else
          -- save this 16-bit chunk
          let ip1 := ip ++ [acc / 256 % 256, acc % 256]
          match s1 with
          | [] => some ([], ip1, ellipsis) -- stop at end of string
          | c :: s2 =>
            if c ≠ ':' then none -- unexpected character, want colon
            else
              match s2 with
              | [] => none -- colon must be followed by more characters
              | d :: s3 =>
                if d = ':' then
                  -- look for ellipsis
                  if ellipsis.isSome then none -- multiple :: in address
                  else
                    match s3 with
                    | [] => some ([], ip1, some ip1.length) -- can be at end
                    | _ :: _ => parseIPv6.loop fuel s3 ip1 (some ip1.length)
                else parseIPv6.loop fuel (d :: s3) ip1 ellipsis

/-- The function `netip.parseIPv6` after the zone has been split off: `s` is the text of
the address, `zone` the zone. -/
def parseIPv6.body (s zone : Str) : Option (List Nat × Str) :=
  -- might have leading ellipsis: len(s) >= 2 && s[0] == ':' && s[1] == ':'
  let lead : Bool := s.take 2 == [':', ':']
  let s1 : Str := if lead then s.drop 2 else s
  let ellipsis0 : Option Nat := if lead then some 0 else none
  if lead ∧ s1 = [] then some (List.replicate 16 0, zone) -- might be only ellipsis
  else
    match parseIPv6.loop 8 s1 [] ellipsis0 with
    | none => none
    | some (rest, ip, ellipsis) =>
      if rest ≠ [] then none -- trailing garbage after address
      else if ip.length < 16 then
        match ellipsis with
        | none => none -- address string too short
        | some e =>
          -- expand the ellipsis
          some (ip.take e ++ List.replicate (16 - ip.length) 0 ++ ip.drop e, zone)
      else if ellipsis.isSome then none -- the :: must expand to at least one field
      else some (ip, zone)

/-- The function `netip.parseIPv6`: the 16 bytes and the zone. -/
def parseIPv6 (input : Str) : Option (List Nat × Str) :=
  -- split off the zone right from the start
  match IndexByte input '%' with
  | none => parseIPv6.body input []
  | some i =>
    if input.drop (i + 1) = [] then none -- zone must be a non-empty string
    else parseIPv6.body (input.take i) (input.drop (i + 1))

/-- The prefix of an IPv4 address in 16-byte form (`v4InV6Prefix`). -/
def v4InV6Prefix : List Nat := [0, 0, 0, 0, 0, 0, 0, 0, 0, 0, 0xFF, 0xFF]

/-- The scan of `netip.ParseAddr` for the first `.`, `:` or `%` of the text, which picks
the parser; the result is the address in 16-byte form (`Addr.As16`) and its zone. -/
def ParseAddr.dispatch (input : Str) : Str → Option (List Nat × Str)
  | [] => none -- unable to parse IP
  | c :: rest =>
    if c = '.' then (parseIPv4Fields input).map (fun v4 => (v4InV6Prefix ++ v4, []))
    else if c = ':' then parseIPv6 input
    else if c = '%' then none -- missing IPv6 address
    else ParseAddr.dispatch input rest

/-- The function `net.ParseIP`: the address in 16-byte form, `nil` when `s` is not the
text of an IPv4 or IPv6 address or has a zone. -/
def ParseIP (s : Str) : IP :=
  match ParseAddr.dispatch s s with
  | some (ip, zone) => if zone ≠ [] then [] else ip
  | none => []

/-- The function `net.IPv4`: the 16-byte form of `a.b.c.d`. -/
def IPv4 (a b c d : Nat) : IP := v4InV6Prefix ++ [a, b, c, d]

/-- The method `IP.To4`: the 4-byte form, `nil` if `ip` is not an IPv4 address. -/
def To4 (ip : IP) : IP :=
  if ip.length = 4 then ip
  else if ip.length = 16 ∧ ip.take 10 = List.replicate 10 0 ∧
      ip.getD 10 0 = 0xFF ∧ ip.getD 11 0 = 0xFF then ip.drop 12
  else []

/-- The method `IP.Equal`: an IPv4 address and its 16-byte form are equal. -/
def IPEqual (ip x : IP) : Bool :=
  if ip.length = x.length then ip == x
  else if ip.length = 4 ∧ x.length = 16 then x.take 12 == v4InV6Prefix && ip == x.drop 12
  else if ip.length = 16 ∧ x.length = 4 then ip.take 12 == v4InV6Prefix && ip.drop 12 == x
  else false

/-- The method `IP.IsUnspecified`. -/
def IsUnspecified (ip : IP) : Bool :=
  IPEqual ip (IPv4 0 0 0 0) || IPEqual ip (List.replicate 16 0)

/-- The method `IP.IsLoopback`. -/
def IsLoopback (ip : IP) : Bool :=
  if To4 ip ≠ [] then (To4 ip).getD 0 0 == 127
  else IPEqual ip (List.replicate 15 0 ++ [1])

/-- The method `IP.IsMulticast`. -/
def IsMulticast (ip : IP) : Bool :=
  if To4 ip ≠ [] then (To4 ip).getD 0 0 / 16 == 0xE -- ip4[0]&0xf0 == 0xe0
  else ip.length == 16 && ip.getD 0 0 == 0xFF

/-- The method `IP.IsLinkLocalUnicast`. -/
def IsLinkLocalUnicast (ip : IP) : Bool :=
  if To4 ip ≠ [] then (To4 ip).getD 0 0 == 169 && (To4 ip).getD 1 0 == 254
  else ip.length == 16 && ip.getD 0 0 == 0xFE && ip.getD 1 0 / 64 == 2 -- ip[1]&0xc0 == 0x80

/-- The method `IP.IsGlobalUnicast`. -/
def IsGlobalUnicast (ip : IP) : Bool :=
  (ip.length == 4 || ip.length == 16) &&
  !IPEqual ip (IPv4 255 255 255 255) &&
  !IsUnspecified ip &&
  !IsLoopback ip &&
  !IsMulticast ip &&
  !IsLinkLocalUnicast ip

/-! ## Package `net/http` -/

/-- The fields of an `http.Request` that the middleware reads. `Header` is the map from
canonical header names to their values. -/
structure Request where
  /-- Method of the request. -/
  Method : Str
  /-- Headers of the request. -/
  Header : List (Str × List Str)
  /-- Address of the peer, `host:port`. -/
  RemoteAddr : Str
deriving DecidableEq

/-- The method `Header.Get` at a canonical key: the first value of the key, `""` if
there is none. -/
def HeaderGet (h : List (Str × List Str)) (key : Str) : Str :=
  match h.lookup key with
  | some (v :: _) => v
  | _ => []

/-! ## `middleware.go`: client-IP resolution -/

/-- The type `ipRange`: start and end of a range of IP addresses. -/
structure ipRange where
  /-- Start of the range. -/
  start : IP
  /-- End of the range. -/
  «end» : IP

/-- The function `inRange`: is the address within the range. -/
def inRange (r : ipRange) (ipAddress : IP) : Bool :=
  -- strcmp type byte comparison
  if bytesCompare ipAddress r.start ≥ 0 ∧ bytesCompare ipAddress r.end < 0 then true
  else false

/-- The table `privateRanges`. -/
def privateRanges : List ipRange :=
  [ ⟨ParseIP "10.0.0.0".toList, ParseIP "10.255.255.255".toList⟩,
    ⟨ParseIP "100.64.0.0".toList, ParseIP "100.127.255.255".toList⟩,
    ⟨ParseIP "172.16.0.0".toList, ParseIP "172.31.255.255".toList⟩,
    ⟨ParseIP "192.0.0.0".toList, ParseIP "192.0.0.255".toList⟩,
    ⟨ParseIP "192.168.0.0".toList, ParseIP "192.168.255.255".toList⟩,
    ⟨ParseIP "198.18.0.0".toList, ParseIP "198.19.255.255".toList⟩ ]

/-- The function `isPrivateSubnet`: is this address in a private subnet. -/
def isPrivateSubnet (ipAddress : IP) : Bool :=
  if To4 ipAddress ≠ [] then privateRanges.any (fun r => inRange r ipAddress)
  else false

/-- The test of `getIPAdress` on one entry of a header: the entry trimmed and without
its port, if it is to be returned. -/
def getIPAdress.candidate (entry : Str) : Option Str :=
  let ip := TrimSpace entry
  let realIP :=
    match SplitHostPort ip with
    | some (host, _) => host
    | none => ip
  let parsedId := ParseIP realIP
  if !IsGlobalUnicast parsedId || isPrivateSubnet parsedId then none -- bad address
  else some realIP

/-- The inner loop of `getIPAdress`, `for i := len(addresses) - 1; i >= 0; i--`, entered
with `i + 1 = n`: `none` is a panic (index out of range), `some none` the end of the loop
without a `return`. -/
def getIPAdress.scan (addresses : List Str) : Nat → Option (Option Str)
  | 0 => some none
  | i + 1 =>
    match addresses[i]? with
    | none => none
    | some entry =>
      match getIPAdress.candidate entry with
      | none => getIPAdress.scan addresses i
      | some realIP => some (some realIP)

/-- The outer loop of `getIPAdress` over the header names that are left. -/
def getIPAdress.headers (r : Request) : List Str → Option Str
  | [] => some []
  | h :: hs =>
    let addresses := Split (HeaderGet r.Header h) ','
    match getIPAdress.scan addresses addresses.length with
    | none => none
    | some (some realIP) => some realIP
    | some none => getIPAdress.headers r hs

/-- The function `getIPAdress`; `none` is a panic. -/
def getIPAdress (r : Request) : Option Str :=
  getIPAdress.headers r ["X-Forwarded-For".toList, "X-Real-Ip".toList]

/-- Go indexing `xs[i]` with an `int` index: `none` is the panic. -/
def index (xs : List Str) (i : Int) : Option Str :=
  if i < 0 then none else xs[i.toNat]?

/-- The function `getClientIPFromRequest`; `none` is a panic. `proxyCount` is a Go `int`:
with `proxyCount > 0` the difference `len - proxyCount` does not overflow, so the
arithmetic is that of `Int`. -/
def getClientIPFromRequest (proxyCount : Int) (r : Request) : Option Str :=
  let xForwardedFor := HeaderGet r.Header "X-Forwarded-For".toList
  -- the two nested `if` of the source; both fall through to the code after them
  if proxyCount > 0 ∧ xForwardedFor ≠ [] then
    let xForwardedForParts := Split xForwardedFor ','
    -- avoid reading the user's forged request header by configuring the count of
    -- reverse proxies
    let partIndex : Int := (xForwardedForParts.length : Int) - proxyCount
    let partIndex := if partIndex < 0 then 0 else partIndex
    (index xForwardedForParts partIndex).map TrimSpace
  else
    -- `getIPAdress(r)` is called twice in the source, with the same result
    match getIPAdress r with
    | none => none
    | some ip =>
      match SplitHostPort ip with
      | some (remoteIP, _) => some remoteIP
      | none =>
        let remoteIP := ip
        if remoteIP = [] then some r.RemoteAddr else some remoteIP

/-! ## Package `time` -/

/-- The value of an `int64` after wrap-around. -/
def wrapInt64 (x : Int) : Int := (x + 2 ^ 63) % 2 ^ 64 - 2 ^ 63

/-- The constant `time.Second`, in nanoseconds. -/
def Second : Int := 1000000000

/-- The function `lessThanHalf` of package `time`: `x + x < y` on the `uint64` values. -/
def lessThanHalf (x y : Int) : Bool := (x % 2 ^ 64 + x % 2 ^ 64) % 2 ^ 64 < y % 2 ^ 64

/-- The method `Duration.Round`: `d` rounded to the nearest multiple of `m`, halves away
from zero; the largest or smallest duration when the result does not fit. -/
def DurationRound (d m : Int) : Int :=
  if m ≤ 0 then d
  else
    let r := Int.tmod d m
    if d < 0 then
      let r := -r
      if lessThanHalf r m then wrapInt64 (d + r)
      else
        let d1 := wrapInt64 (d - m + r)
        if d1 < d then d1 else -(2 ^ 63) -- overflow
    else
      if lessThanHalf r m then wrapInt64 (d - r)
      else
        let d1 := wrapInt64 (d + m - r)
        if d1 > d then d1 else 2 ^ 63 - 1 -- overflow

/-- The function `time.fmtInt`: `v` in decimal. -/
def fmtInt (v : Nat) : Str := Nat.toDigits 10 v

/-- The loop of `time.fmtFrac`: the last `prec` decimal digits of `v` without trailing
zeros, preceded by a point if there are any, and `v / 10 ^ prec`. -/
def fmtFrac : Nat → Nat → Bool → Str → Str × Nat
  | 0, v, print, acc => (if print then '.' :: acc else acc, v)
  | prec + 1, v, print, acc =>
    let digit := v % 10
    let print1 := print || digit != 0
    fmtFrac prec (v / 10) print1 (if print1 then Char.ofNat (digit + 48) :: acc else acc)

/-- The method `Duration.String`, as in `72h3m0.5s`. -/
def DurationString (d : Int) : Str :=
  let u := d.natAbs
  let body : Str :=
    if u < 1000000000 then
      -- smaller than a second: use smaller units, like 1.2ms
      if u = 0 then "0s".toList
      else if u < 1000 then fmtInt u ++ "ns".toList
      else if u < 1000000 then
        (fun f : Str × Nat => fmtInt f.2 ++ f.1 ++ "µs".toList) (fmtFrac 3 u false [])
      else
        (fun f : Str × Nat => fmtInt f.2 ++ f.1 ++ "ms".toList) (fmtFrac 6 u false [])
    else
      let f := fmtFrac 9 u false []
      -- f.2 is integer seconds
      let secs := fmtInt (f.2 % 60) ++ f.1 ++ "s".toList
      let mins := f.2 / 60
      if mins > 0 then
        let hours := mins / 60
        if hours > 0 then
          fmtInt hours ++ "h".toList ++ fmtInt (mins % 60) ++ "m".toList ++ secs
        else fmtInt (mins % 60) ++ "m".toList ++ secs
      else secs
  if d < 0 then '-' :: body else body

/-! ## The TTL store -/

/-- An entry of the store: the value, the configured time to live and the time that is
left, in nanoseconds. -/
structure Item where
  /-- Stored value. -/
  data : Bool
  /-- Configured time to live. -/
  ttl : Int
  /-- Time left before expiry. -/
  remaining : Int
deriving DecidableEq

/-- Modelled from the spec: the TTL store of section 3, for which the code uses the
library `github.com/jellydator/ttlcache/v2`, whose source is not part of the repository.
A mapping from a key to a present marker plus a remaining time; an entry whose remaining
time is not positive has expired and counts as absent. Time is explicit: `Cache.elapse`
is the passage of `d` nanoseconds. `skipTTLExtension` is the switch that disables the
refresh of an entry on a hit ("touch"). -/
structure Cache where
  /-- Entries, at most one for each key. -/
  items : List (Str × Item)
  /-- No refresh on a hit. -/
  skipTTLExtension : Bool
deriving DecidableEq

/-- Modelled from the spec: the function `ttlcache.NewCache` of the same library, an
empty store with touch enabled. -/
def NewCache : Cache := ⟨[], false⟩

/-- Modelled from the spec: the method `Cache.SkipTTLExtensionOnHit` of the same library,
which disables touch ("No entry's TTL is ever extended or refreshed on a cache hit"). -/
def Cache.SkipTTLExtensionOnHit (c : Cache) (value : Bool) : Cache :=
  { c with skipTTLExtension := value }

/-- Modelled from the spec: the method `Cache.SetWithTTL` of the same library, for
`ttl > 0`: the entry of `key` starts a new countdown of `ttl`. -/
def Cache.SetWithTTL (c : Cache) (key : Str) (data : Bool) (ttl : Int) : Cache :=
  { c with items := (key, ⟨data, ttl, ttl⟩) :: c.items.filter (fun e => e.1 ≠ key) }

/-- Modelled from the spec: the method `Cache.Remove` of the same library: the entry of
`key` is dropped. -/
def Cache.Remove (c : Cache) (key : Str) : Cache :=
  { c with items := c.items.filter (fun e => e.1 ≠ key) }

/-- Modelled from the spec: the method `Cache.GetWithTTL` of the same library. `none` is
the error `ErrNotFound`, for a key that is absent or has expired; on a hit the value and
the remaining time, or, when touch is enabled, the configured time to live, with which
the entry starts again. -/
def Cache.GetWithTTL (c : Cache) (key : Str) : Option (Bool × Int) × Cache :=
  match c.items.lookup key with
  | none => (none, c)
  | some it =>
    if it.remaining ≤ 0 then (none, c)
    else if c.skipTTLExtension then (some (it.data, it.remaining), c)
    else
      let touch : Str × Item → Str × Item :=
        fun e => if e.1 = key then (e.1, { e.2 with remaining := e.2.ttl }) else e
      (some (it.data, it.ttl), { c with items := c.items.map touch })

/-- Modelled from the spec: the passage of `d` nanoseconds, which every entry of the
store loses from its remaining time. -/
def Cache.elapse (c : Cache) (d : Int) : Cache :=
  { c with items := c.items.map (fun e => (e.1, { e.2 with remaining := e.2.remaining - d })) }

/-- Modelled from the spec: the remaining time of `key` when it is present in the store
("a key's presence implies its remaining time is positive"). -/
def Cache.remaining (c : Cache) (key : Str) : Option Int :=
  match c.items.lookup key with
  | none => none
  | some it => if it.remaining ≤ 0 then none else some it.remaining

/-! ## `dto.go` and the response writer -/

/-- The type `claimResponse`. -/
structure claimResponse where
  /-- Field `msg`. -/
  Message : Str
deriving DecidableEq

/-- The type `malformedRequest`. -/
structure malformedRequest where
  /-- HTTP status to answer with. -/
  status : Int
  /-- Text of the error. -/
  message : Str
deriving DecidableEq

/-- The error of `readAddress`: a `malformedRequest` or another error. -/
inductive ReadError where
  | malformed (mr : malformedRequest)
  | other
deriving DecidableEq

/-- The state of a `negroni.ResponseWriter`: the status written (`0` before any) and the
values encoded to the body. -/
structure ResponseWriter where
  /-- Result of `Status()`. -/
  status : Int
  /-- Messages written to the body, oldest first. -/
  body : List claimResponse
deriving DecidableEq

/-- The function `renderJSON`, on a writer whose header has not been written: writes the
status `code` and the JSON encoding of `v`. -/
def renderJSON (w : ResponseWriter) (v : claimResponse) (code : Int) : ResponseWriter :=
  { status := code, body := w.body ++ [v] }

/-- The constant `http.StatusOK`. -/
def StatusOK : Int := 200

/-- The constant `http.StatusTooManyRequests`. -/
def StatusTooManyRequests : Int := 429

/-- The constant `http.StatusInternalServerError`. -/
def StatusInternalServerError : Int := 500

/-! ## `middleware.go`: the limiter -/

/-- The type `Limiter`; the mutex has no state of its own in a sequential run. -/
structure Limiter where
  /-- The TTL store. -/
  cache : Cache
  /-- Number of trusted reverse proxies. -/
  proxyCount : Int
  /-- The cooldown. -/
  ttl : Int
deriving DecidableEq

/-- The function `NewLimiter`. -/
def NewLimiter (proxyCount : Int) (ttl : Int) : Limiter :=
  let cache := NewCache.SkipTTLExtensionOnHit true
  { cache := cache, proxyCount := proxyCount, ttl := ttl }

/-- The message of a rejection. -/
def rateLimitMessage (key : Str) (ttl : Int) : Str :=
  "You have exceeded the rate limit for ".toList ++ key ++ ". Please wait ".toList ++
    DurationString (DurationRound ttl Second) ++ " before you try again".toList

/-- The method `Limiter.limitByKey`: on a hit writes the rejection and returns `true`. -/
def Limiter.limitByKey (l : Limiter) (w : ResponseWriter) (key : Str) :
    Bool × Limiter × ResponseWriter :=
  match l.cache.GetWithTTL key with
  | (some (_, ttl), cache) =>
    let errMsg := rateLimitMessage key ttl
    (true, { l with cache := cache }, renderJSON w ⟨errMsg⟩ StatusTooManyRequests)
  | (none, cache) => (false, { l with cache := cache }, w)

/-- The method `Limiter.ServeHTTP`. `readAddress` is the function of `dto.go` (it decodes
the body and checks the address with `chain.IsValidAddress`), `next` the rest of the
middleware chain acting on the response writer. The result is the limiter and the
response writer after the call; `none` is a panic. -/
def Limiter.ServeHTTP (readAddress : Request → Except ReadError Str) (l : Limiter)
    (w : ResponseWriter) (r : Request) (next : ResponseWriter → Request → ResponseWriter) :
    Option (Limiter × ResponseWriter) :=
  match readAddress r with
  | .error (.malformed mr) => some (l, renderJSON w ⟨mr.message⟩ mr.status)
  | .error .other =>
    some (l, renderJSON w ⟨"Internal Server Error".toList⟩ StatusInternalServerError)
  | .ok address =>
    if l.ttl ≤ 0 then some (l, next w r)
    else
      match getClientIPFromRequest l.proxyCount r with
      | none => none
      | some clintIP =>
        -- l.mutex.Lock()
        let hit1 := l.limitByKey w address
        if hit1.1 then some hit1.2
        else
          let hit2 := hit1.2.1.limitByKey hit1.2.2 clintIP
          if hit2.1 then some hit2.2
          else
            let l2 := hit2.2.1
            let cache1 := l2.cache.SetWithTTL address true l2.ttl
            let cache2 := cache1.SetWithTTL clintIP true l2.ttl
            -- l.mutex.Unlock()
            let w1 := next hit2.2.2 r
            if w1.status ≠ StatusOK then
              some ({ l2 with cache := (cache2.Remove address).Remove clintIP }, w1)
            else some ({ l2 with cache := cache2 }, w1)

/-- The passage of `d` nanoseconds for a limiter. -/
def Limiter.elapse (l : Limiter) (d : Int) : Limiter :=
  { l with cache := l.cache.elapse d }

/-! ## `server.go`: the protected action -/

/-- The constant `http.StatusNotFound`. -/
def StatusNotFound : Int := 404

/-- The handler returned by `Server.handleClaim`. `Transfer` is the method of
`chain.TxBuilder` at the configured payout: from the address, the transaction hash or
the text of the error (a timeout of the 5 second context is such an error). The plain
text written by `http.NotFound` is recorded like a message. -/
def handleClaim (readAddress : Request → Except ReadError Str)
    (Transfer : Str → Except Str Str) (w : ResponseWriter) (r : Request) : ResponseWriter :=
  if r.Method ≠ "POST".toList then
    { status := StatusNotFound, body := w.body ++ [⟨"404 page not found".toList⟩] }
  else
    -- The error always be nil since it has already been handled in limiter
    let address : Str :=
      match readAddress r with
      | .ok a => a
      | .error _ => []
    match Transfer address with
    | .error err => renderJSON w ⟨err⟩ StatusInternalServerError
    | .ok txHash => renderJSON w ⟨"Txhash: ".toList ++ txHash⟩ StatusOK

/-! ## The loops of `getIPAdress` as a search

The functions of this section restate the code, not the specification: `accepted` is the
test of the loop body of `getIPAdress`, with the range test of the code as it is. -/

/-- An entry of a header without its optional port suffix, as the loop body of
`getIPAdress` computes it with `net.SplitHostPort`. -/
def stripPort (s : Str) : Str :=
  match SplitHostPort s with
  | some (host, _) => host
  | none => s

/-- The test of the code on a candidate: the negation of the condition
`!parsedId.IsGlobalUnicast() || isPrivateSubnet(parsedId)` under which the loop of
`getIPAdress` goes on to the next entry. -/
def accepted (c : Str) : Bool :=
  IsGlobalUnicast (ParseIP c) && !isPrivateSubnet (ParseIP c)

/-- The rightmost comma-separated entry of a header value that, trimmed and without its
port, passes the test of the code. -/
def rightmostAccepted (header : Str) : Option Str :=
  (((Split header ',').map (fun e => stripPort (TrimSpace e))).reverse).find? accepted

/-- The result of the two loops of `getIPAdress` on the two header values: from
`X-Forwarded-For` if an entry passes the test of the code, else from `X-Real-Ip`, else
the empty string. -/
def bestPublicIP (xForwardedFor xRealIp : Str) : Str :=
  match rightmostAccepted xForwardedFor with
  | some c => c
  | none =>
    match rightmostAccepted xRealIp with
    | some c => c
    | none => []

/-! ## The best-public-IP scan in the words of the specification -/

/-- The address falls inside the private/reserved range table: it is an IPv4 address
that lies between the start bound and the end bound of a block of the table, the bounds
themselves included. -/
def insideTable (ip : IP) : Bool :=
  if To4 ip ≠ [] then
    privateRanges.any
      (fun rg => decide (bytesCompare ip rg.start ≥ 0 ∧ bytesCompare ip rg.end ≤ 0))
  else false

/-- A candidate survives both checks of the specification: it parses as an IP address
that is global unicast and that does not fall inside the private/reserved range table. -/
def qualifies (c : Str) : Bool :=
  IsGlobalUnicast (ParseIP c) && !insideTable (ParseIP c)

/-- The rightmost comma-separated entry of a header value that, after trimming white
space and stripping an optional port suffix, qualifies. -/
def rightmostQualifying (header : Str) : Option Str :=
  (((Split header ',').map (fun e => stripPort (TrimSpace e))).reverse).find? qualifies

/-- The best public IP of the specification: the rightmost qualifying entry of
`X-Forwarded-For`; if none qualifies, the rightmost qualifying entry of `X-Real-Ip`; the
empty string if no entry of either header qualifies. -/
def publicIPOfHeaders (xForwardedFor xRealIp : Str) : Str :=
  match rightmostQualifying xForwardedFor with
  | some c => c
  | none =>
    match rightmostQualifying xRealIp with
    | some c => c
    | none => []

/-- The address is the end bound of a block of the table. -/
def isEndBound (ip : IP) : Bool :=
  privateRanges.any (fun rg => bytesCompare ip rg.end == 0)

/-! ## Example requests -/

/-- A request with the given `X-Forwarded-For` value and remote address. -/
def forwardedRequest (xForwardedFor remoteAddr : String) : Request :=
  { Method := "POST".toList,
    Header := [("X-Forwarded-For".toList, [xForwardedFor.toList])],
    RemoteAddr := remoteAddr.toList }

/-- A request without headers from the given remote address. -/
def directRequest (remoteAddr : String) : Request :=
  { Method := "POST".toList, Header := [], RemoteAddr := remoteAddr.toList }

/-- An address for the examples. -/
def exampleAddress : Str := "0x52908400098527886E0F7030069857D2E4169EE7".toList

/-- A `readAddress` for the examples: every body holds the same valid address. -/
def exampleReadAddress : Request → Except ReadError Str :=
  fun _ => .ok exampleAddress

/-- A limiter without trusted proxies and with a cooldown of one minute. -/
def exampleLimiter : Limiter := NewLimiter 0 (60 * Second)

/-- The example limiter right after a first claim from `203.0.113.7:54321` went through. -/
def exampleHotLimiter : Limiter :=
  { cache := (exampleLimiter.cache.SetWithTTL exampleAddress true (60 * Second)).SetWithTTL
      "203.0.113.7:54321".toList true (60 * Second),
    proxyCount := 0,
    ttl := 60 * Second }

/-- A response writer nothing has been written to. -/
def freshWriter : ResponseWriter := { status := 0, body := [] }

/-- A transfer that succeeds. -/
def transferOk : Str → Except Str Str := fun _ => .ok "0x01".toList

/-- A transfer that fails. -/
def transferFails : Str → Except Str Str := fun _ => .error "insufficient funds".toList

/-! ## Checks of the library functions on examples -/

theorem Split_examples :
    Split "1.1.1.1, 2.2.2.2,,3.3.3.3".toList ','
      = ["1.1.1.1".toList, " 2.2.2.2".toList, [], "3.3.3.3".toList] ∧
    Split [] ',' = [[]] ∧
    Split ",".toList ',' = [[], []] := by
  decide

theorem TrimSpace_examples :
    TrimSpace " \t8.8.8.8 \r\n".toList = "8.8.8.8".toList ∧
    TrimSpace "  ".toList = [] ∧
    TrimSpace "a b".toList = "a b".toList := by
  decide

theorem SplitHostPort_examples :
    SplitHostPort "203.0.113.7:54321".toList = some ("203.0.113.7".toList, "54321".toList) ∧
    SplitHostPort "[2001:db8::1]:80".toList = some ("2001:db8::1".toList, "80".toList) ∧
    SplitHostPort "2001:db8::1".toList = none ∧
    SplitHostPort "203.0.113.7".toList = none ∧
    SplitHostPort ":80".toList = some ([], "80".toList) ∧
    SplitHostPort [] = none := by
  decide

theorem ParseIP_examples :
    ParseIP "192.168.0.1".toList = IPv4 192 168 0 1 ∧
    ParseIP "::ffff:10.0.0.5".toList = IPv4 10 0 0 5 ∧
    ParseIP "2001:db8::1".toList = [0x20, 0x01, 0x0D, 0xB8, 0, 0, 0, 0, 0, 0, 0, 0, 0, 0, 0, 1] ∧
    ParseIP "::".toList = List.replicate 16 0 ∧
    ParseIP "01.2.3.4".toList = [] ∧
    ParseIP "1.2.3".toList = [] ∧
    ParseIP "1.2.3.256".toList = [] ∧
    ParseIP "8.8.8.8:53".toList = [] ∧
    ParseIP "fe80::1%eth0".toList = [] ∧
    ParseIP "1:2:3:4:5:6:7:8:9".toList = [] ∧
    ParseIP [] = [] := by
  decide

theorem IsGlobalUnicast_examples :
    IsGlobalUnicast (IPv4 8 8 8 8) = true ∧
    IsGlobalUnicast (IPv4 10 0 0 5) = true ∧
    IsGlobalUnicast (IPv4 127 0 0 1) = false ∧
    IsGlobalUnicast (IPv4 169 254 1 1) = false ∧
    IsGlobalUnicast (IPv4 224 0 0 1) = false ∧
    IsGlobalUnicast (IPv4 255 255 255 255) = false ∧
    IsGlobalUnicast (IPv4 0 0 0 0) = false ∧
    IsGlobalUnicast (ParseIP "::1".toList) = false ∧
    IsGlobalUnicast (ParseIP "fe80::1".toList) = false ∧
    IsGlobalUnicast (ParseIP "2001:db8::1".toList) = true ∧
    IsGlobalUnicast [] = false := by
  decide

theorem isPrivateSubnet_examples :
    isPrivateSubnet (IPv4 10 0 0 0) = true ∧
    isPrivateSubnet (IPv4 10 0 0 5) = true ∧
    isPrivateSubnet (IPv4 10 255 255 254) = true ∧
    isPrivateSubnet (IPv4 192 168 1 1) = true ∧
    isPrivateSubnet (IPv4 172 32 0 1) = false ∧
    isPrivateSubnet (IPv4 8 8 8 8) = false := by
  decide

theorem Duration_examples :
    DurationString (DurationRound (89600 * 1000000) Second) = "1m30s".toList ∧
    DurationString (DurationRound (59400 * 1000000) Second) = "59s".toList ∧
    DurationString (DurationRound (3600 * Second) Second) = "1h0m0s".toList ∧
    DurationString (DurationRound (400 * 1000000) Second) = "0s".toList ∧
    DurationString 1500000 = "1.5ms".toList := by
  decide

/-! ## Lemmas on the library functions -/

theorem Split_ne_nil (s : Str) (sep : Char) : Split s sep ≠ [] := by
  induction s with
  | nil => simp [Split]
  | cons c cs ih =>
    unfold Split
    split
    · simp
    · split <;> simp

theorem Split_length_pos (s : Str) (sep : Char) : 0 < (Split s sep).length :=
  List.length_pos.mpr (Split_ne_nil s sep)

/-! ## Lemmas on `getIPAdress` -/

theorem candidate_eq (entry : Str) :
    getIPAdress.candidate entry =
      if accepted (stripPort (TrimSpace entry)) then some (stripPort (TrimSpace entry))
      else none := by
  unfold getIPAdress.candidate accepted stripPort
  cases h1 : IsGlobalUnicast (ParseIP (match SplitHostPort (TrimSpace entry) with
      | some (host, _) => host
      | none => TrimSpace entry)) <;>
    cases h2 : isPrivateSubnet (ParseIP (match SplitHostPort (TrimSpace entry) with
      | some (host, _) => host
      | none => TrimSpace entry)) <;> simp [h1, h2]

theorem scan_eq (addresses : List Str) :
    ∀ n, n ≤ addresses.length →
      getIPAdress.scan addresses n =
        some ((((addresses.take n).map (fun e => stripPort (TrimSpace e))).reverse).find?
          accepted) := by
  intro n
  induction n with
  | zero => intro _; simp [getIPAdress.scan]
  | succ i ih =>
    intro h
    have hi : i < addresses.length := h
    unfold getIPAdress.scan
    rw [List.getElem?_eq_getElem hi, List.take_succ, List.getElem?_eq_getElem hi]
    simp only [candidate_eq, Option.toList, List.map_append, List.map_cons, List.map_nil,
      List.reverse_append, List.reverse_cons, List.reverse_nil, List.nil_append,
      List.singleton_append, List.find?_cons]
    cases hacc : accepted (stripPort (TrimSpace addresses[i]))
    · simpa using ih (Nat.le_of_lt hi)
    · simp

theorem scan_full (header : Str) :
    getIPAdress.scan (Split header ',') (Split header ',').length =
      some (rightmostAccepted header) := by
  rw [scan_eq _ _ (Nat.le_refl _), List.take_length]
  rfl

theorem getIPAdress_eq (r : Request) :
    getIPAdress r =
      some (bestPublicIP (HeaderGet r.Header "X-Forwarded-For".toList)
        (HeaderGet r.Header "X-Real-Ip".toList)) := by
  unfold getIPAdress bestPublicIP
  simp only [getIPAdress.headers, scan_full]
  cases rightmostAccepted (HeaderGet r.Header "X-Forwarded-For".toList) with
  | some c => rfl
  | none =>
    cases rightmostAccepted (HeaderGet r.Header "X-Real-Ip".toList) with
    | some c => rfl
    | none => rfl

/-! ## The code against the specification of the scan -/

theorem any_ext {α : Type} (l : List α) (f g : α → Bool) (h : ∀ x ∈ l, f x = g x) :
    l.any f = l.any g := by
  induction l with
  | nil => rfl
  | cons x xs ih =>
    rw [List.any_cons, List.any_cons, h x (List.mem_cons_self x xs),
      ih (fun y hy => h y (List.mem_cons_of_mem x hy))]

theorem find_ext {α : Type} (l : List α) (p q : α → Bool) (h : ∀ x ∈ l, p x = q x) :
    l.find? p = l.find? q := by
  induction l with
  | nil => rfl
  | cons x xs ih =>
    rw [List.find?_cons, List.find?_cons, h x (List.mem_cons_self x xs),
      ih (fun y hy => h y (List.mem_cons_of_mem x hy))]

/-- Away from its end bound the range test of the code is the test with both bounds
included. -/
theorem inRange_eq_inclusive (rg : ipRange) (ip : IP) (h : bytesCompare ip rg.end ≠ 0) :
    inRange rg ip = decide (bytesCompare ip rg.start ≥ 0 ∧ bytesCompare ip rg.end ≤ 0) := by
  unfold inRange
  by_cases h1 : bytesCompare ip rg.start ≥ 0
  · by_cases h2 : bytesCompare ip rg.end < 0
    · have h3 : bytesCompare ip rg.end ≤ 0 := Int.le_of_lt h2
      simp [h1, h2, h3]
    · have h3 : ¬ bytesCompare ip rg.end ≤ 0 := by omega
      simp [h1, h2, h3]
  · simp [h1]

/-- For an address that is not the end bound of a block, `isPrivateSubnet` decides
whether the address falls inside the table. -/
theorem isPrivateSubnet_eq_insideTable (ip : IP) (h : isEndBound ip = false) :
    isPrivateSubnet ip = insideTable ip := by
  have hne : ∀ rg ∈ privateRanges, bytesCompare ip rg.end ≠ 0 := by
    intro rg hrg h0
    unfold isEndBound at h
    rw [List.any_eq_false] at h
    exact h rg hrg (by simp [h0])
  unfold isPrivateSubnet insideTable
  by_cases hT : To4 ip ≠ []
  · rw [if_pos hT, if_pos hT]
    exact any_ext _ _ _ (fun rg hrg => inRange_eq_inclusive rg ip (hne rg hrg))
  · rw [if_neg hT, if_neg hT]

theorem rightmostAccepted_eq_qualifying (header : Str)
    (h : ∀ e ∈ Split header ',', isEndBound (ParseIP (stripPort (TrimSpace e))) = false) :
    rightmostAccepted header = rightmostQualifying header := by
  unfold rightmostAccepted rightmostQualifying
  apply find_ext
  intro x hx
  rw [List.mem_reverse, List.mem_map] at hx
  obtain ⟨e, he, hxe⟩ := hx
  unfold accepted qualifies
  rw [isPrivateSubnet_eq_insideTable _ (hxe ▸ h e he)]

/-- On every request none of whose header entries is the end bound of a block of the
table, `getIPAdress` returns what the specification of the scan says: the end bounds
are the only inputs on which the two differ. -/
theorem getIPAdress_eq_publicIPOfHeaders (r : Request)
    (hx : ∀ e ∈ Split (HeaderGet r.Header "X-Forwarded-For".toList) ',',
      isEndBound (ParseIP (stripPort (TrimSpace e))) = false)
    (hr : ∀ e ∈ Split (HeaderGet r.Header "X-Real-Ip".toList) ',',
      isEndBound (ParseIP (stripPort (TrimSpace e))) = false) :
    getIPAdress r =
      some (publicIPOfHeaders (HeaderGet r.Header "X-Forwarded-For".toList)
        (HeaderGet r.Header "X-Real-Ip".toList)) := by
  rw [getIPAdress_eq]
  unfold bestPublicIP publicIPOfHeaders
  rw [rightmostAccepted_eq_qualifying _ hx, rightmostAccepted_eq_qualifying _ hr]

/-- The example of the specification: the private entry on the left is skipped. -/
theorem getIPAdress_private_then_public (r : Request)
    (h : HeaderGet r.Header "X-Forwarded-For".toList = "10.0.0.5, 8.8.8.8".toList) :
    getIPAdress r = some "8.8.8.8".toList := by
  rw [getIPAdress_eq, h]
  have h1 : rightmostAccepted "10.0.0.5, 8.8.8.8".toList = some "8.8.8.8".toList := by decide
  unfold bestPublicIP
  rw [h1]

theorem getIPAdress_accepted (r : Request) (ip : Str) (h : getIPAdress r = some ip) :
    ip = [] ∨ accepted ip = true := by
  rw [getIPAdress_eq] at h
  have h1 : bestPublicIP (HeaderGet r.Header "X-Forwarded-For".toList)
      (HeaderGet r.Header "X-Real-Ip".toList) = ip := Option.some.inj h
  unfold bestPublicIP at h1
  cases hx : rightmostAccepted (HeaderGet r.Header "X-Forwarded-For".toList) with
  | some c =>
    rw [hx] at h1
    right
    have := List.find?_some hx
    simpa [← h1] using this
  | none =>
    rw [hx] at h1
    cases hy : rightmostAccepted (HeaderGet r.Header "X-Real-Ip".toList) with
    | some c =>
      rw [hy] at h1
      right
      have := List.find?_some hy
      simpa [← h1] using this
    | none =>
      rw [hy] at h1
      left
      exact h1.symm

/-! ## Lemmas on `net.ParseIP` and `net.SplitHostPort` -/

theorem hexVal_none_not_digit (c : Char) (h : hexVal c = none) : ¬ ('0' ≤ c ∧ c ≤ '9') := by
  intro hd
  unfold hexVal at h
  rw [if_pos hd] at h
  cases h

theorem parseIPv4Fields_bad_head (c : Char) (t : Str) (h : ¬ ('0' ≤ c ∧ c ≤ '9')) :
    parseIPv4Fields (c :: t) = none := by
  unfold parseIPv4Fields parseIPv4Fields.loop
  rw [if_neg h]
  simp

theorem parseIPv6_loop_bad_head (fuel : Nat) (c : Char) (x : Str) (e : Option Nat)
    (h : hexVal c = none) : parseIPv6.loop (fuel + 1) (c :: x) [] e = none := by
  unfold parseIPv6.loop parseIPv6.hex
  simp [h]

theorem parseIPv6_loop_nil (fuel : Nat) (e : Option Nat) :
    parseIPv6.loop (fuel + 1) [] [] e = none := by
  unfold parseIPv6.loop parseIPv6.hex
  simp

theorem parseIPv6_body_nil (zone : Str) : parseIPv6.body [] zone = none := by
  unfold parseIPv6.body
  simp [parseIPv6_loop_nil]

theorem parseIPv6_body_bad_head (c : Char) (x zone : Str) (hc : hexVal c = none)
    (h2 : c = ':' → x.head? ≠ some ':') : parseIPv6.body (c :: x) zone = none := by
  have hlead : ((c :: x).take 2 == [':', ':']) = false := by
    cases x with
    | nil => simp
    | cons d y =>
      by_cases hcc : c = ':'
      · have := h2 hcc
        simp at this
        simp [this]
      · simp [hcc]
  unfold parseIPv6.body
  simp only [hlead]
  simp [parseIPv6_loop_bad_head _ _ _ _ hc]

theorem head_take (t : Str) (j : Nat) (a : Char) (h : (t.take j).head? = some a) :
    t.head? = some a := by
  cases t with
  | nil => simp at h
  | cons d y =>
    cases j with
    | zero => simp at h
    | succ k => simpa using h

theorem parseIPv6_bad_head (c : Char) (t : Str) (hc : hexVal c = none)
    (h2 : c = ':' → t.head? ≠ some ':') : parseIPv6 (c :: t) = none := by
  unfold parseIPv6 IndexByte
  by_cases hp : c = '%'
  · simp [hp, parseIPv6_body_nil]
  · rw [if_neg hp]
    cases hi : IndexByte t '%' with
    | none => simpa using parseIPv6_body_bad_head c t [] hc h2
    | some j =>
      simp only [Option.map_some', List.take_succ_cons]
      split
      · rfl
      · apply parseIPv6_body_bad_head _ _ _ hc
        intro hcc hh
        exact h2 hcc (head_take _ _ _ hh)

theorem dispatch_none (input : Str) (h4 : parseIPv4Fields input = none)
    (h6 : parseIPv6 input = none) : ∀ rest, ParseAddr.dispatch input rest = none := by
  intro rest
  induction rest with
  | nil => rfl
  | cons c cs ih =>
    unfold ParseAddr.dispatch
    split
    · simp [h4]
    · split
      · exact h6
      · split
        · rfl
        · exact ih

theorem ParseIP_bad_head (c : Char) (t : Str) (hc : hexVal c = none)
    (h2 : c = ':' → t.head? ≠ some ':') : ParseIP (c :: t) = [] := by
  unfold ParseIP
  rw [dispatch_none _ (parseIPv4Fields_bad_head c t (hexVal_none_not_digit c hc))
    (parseIPv6_bad_head c t hc h2)]

theorem LastIndexByte_none_head (t : Str) (c : Char) (h : LastIndexByte t c = none) :
    t.head? ≠ some c := by
  cases t with
  | nil => simp
  | cons d y =>
    unfold LastIndexByte at h
    cases hy : LastIndexByte y c with
    | some i => rw [hy] at h; cases h
    | none =>
      rw [hy] at h
      by_cases hd : d = c
      · simp [hd] at h
      · simpa using hd

/-- A text from which `net.SplitHostPort` splits an empty host is not the text of an IP
address. -/
theorem ParseIP_of_empty_host (s port : Str) (h : SplitHostPort s = some ([], port)) :
    ParseIP s = [] := by
  cases s with
  | nil => simp [SplitHostPort, LastIndexByte] at h
  | cons c t =>
    by_cases hb : c = '['
    · subst hb
      exact ParseIP_bad_head _ t (by decide) (fun hcc => absurd hcc (by decide))
    · unfold SplitHostPort at h
      cases hL : LastIndexByte (c :: t) ':' with
      | none => simp [hL] at h
      | some i =>
        simp only [hL, List.head?_cons, Option.some.injEq, hb, if_false] at h
        have hi : i = 0 := by
          cases i with
          | zero => rfl
          | succ k =>
            simp only [List.take_succ_cons] at h
            split at h
            · cases h
            · split at h
              · cases h
              · split at h
                · cases h
                · simp at h
        subst hi
        unfold LastIndexByte at hL
        cases ht : LastIndexByte t ':' with
        | some j => simp [ht] at hL
        | none =>
          simp only [ht] at hL
          have hc : c = ':' := by
            by_cases hcc : c = ':'
            · exact hcc
            · simp [hcc] at hL
          subst hc
          exact ParseIP_bad_head _ t (by decide) (fun _ => LastIndexByte_none_head t _ ht)

/-! ## Lemmas on `getClientIPFromRequest` -/

/-- The trusted-proxy branch: the entry at index `k - proxyCount`, clamped to 0. -/
theorem getClientIP_trusted (proxyCount : Int) (r : Request) (hpc : 0 < proxyCount)
    (hx : HeaderGet r.Header "X-Forwarded-For".toList ≠ []) :
    getClientIPFromRequest proxyCount r =
      ((Split (HeaderGet r.Header "X-Forwarded-For".toList) ',')[
        (Split (HeaderGet r.Header "X-Forwarded-For".toList) ',').length
          - proxyCount.toNat]?).map TrimSpace := by
  unfold getClientIPFromRequest
  simp only [gt_iff_lt, ne_eq, hpc, hx, not_false_eq_true, and_self, if_true, index]
  congr 1
  split
  · rename_i h
    have h0 : (Split (HeaderGet r.Header "X-Forwarded-For".toList) ',').length
        - proxyCount.toNat = 0 := by omega
    rw [h0]
    rfl
  · rename_i h
    congr 1
    omega

/-- Outside the trusted-proxy branch: the result of `getIPAdress` without its port if it
has one, else that result, else the raw remote address. -/
theorem getClientIP_untrusted (proxyCount : Int) (r : Request)
    (hb : ¬ (0 < proxyCount ∧ HeaderGet r.Header "X-Forwarded-For".toList ≠ [])) :
    getClientIPFromRequest proxyCount r =
      match SplitHostPort (bestPublicIP (HeaderGet r.Header "X-Forwarded-For".toList)
          (HeaderGet r.Header "X-Real-Ip".toList)) with
      | some (remoteIP, _) => some remoteIP
      | none =>
        if bestPublicIP (HeaderGet r.Header "X-Forwarded-For".toList)
            (HeaderGet r.Header "X-Real-Ip".toList) = [] then some r.RemoteAddr
        else some (bestPublicIP (HeaderGet r.Header "X-Forwarded-For".toList)
            (HeaderGet r.Header "X-Real-Ip".toList)) := by
  unfold getClientIPFromRequest
  simp only [gt_iff_lt, ne_eq]
  rw [if_neg (by simpa using hb), getIPAdress_eq]

/-- The resolver does not panic. -/
theorem getClientIP_total (proxyCount : Int) (r : Request) :
    ∃ ip, getClientIPFromRequest proxyCount r = some ip := by
  by_cases hb : 0 < proxyCount ∧ HeaderGet r.Header "X-Forwarded-For".toList ≠ []
  · rw [getClientIP_trusted proxyCount r hb.1 hb.2]
    have hlen := Split_length_pos (HeaderGet r.Header "X-Forwarded-For".toList) ','
    have hi : (Split (HeaderGet r.Header "X-Forwarded-For".toList) ',').length
        - proxyCount.toNat < (Split (HeaderGet r.Header "X-Forwarded-For".toList) ',').length := by
      have := hb.1
      omega
    rw [List.getElem?_eq_getElem hi]
    exact ⟨_, rfl⟩
  · rw [getClientIP_untrusted proxyCount r hb]
    split
    · exact ⟨_, rfl⟩
    · split <;> exact ⟨_, rfl⟩

/-- Outside the trusted-proxy branch, when no header entry is accepted, the result is the
remote address as it stands. -/
theorem getClientIP_fallback_raw (proxyCount : Int) (r : Request)
    (hb : ¬ (0 < proxyCount ∧ HeaderGet r.Header "X-Forwarded-For".toList ≠ []))
    (hnone : bestPublicIP (HeaderGet r.Header "X-Forwarded-For".toList)
      (HeaderGet r.Header "X-Real-Ip".toList) = []) :
    getClientIPFromRequest proxyCount r = some r.RemoteAddr := by
  rw [getClientIP_untrusted proxyCount r hb, hnone]
  rfl

/-! ## Client-IP resolution: the claims -/

/-- C3: for `proxyCount > 0` and a non-empty `X-Forwarded-For` value that splits on commas
into the entries `parts`, `k` of them, `getClientIPFromRequest` returns the
whitespace-trimmed entry at index `k - proxyCount` when `k ≥ proxyCount` and the
whitespace-trimmed entry at index 0 when `proxyCount ≥ k`; the index is within the bounds
of `parts` and the call does not panic. -/
theorem trusted_proxy_entry (proxyCount : Int) (r : Request) (parts : List Str)
    (hpc : 0 < proxyCount)
    (hx : HeaderGet r.Header "X-Forwarded-For".toList ≠ [])
    (hparts : Split (HeaderGet r.Header "X-Forwarded-For".toList) ',' = parts) :
    (proxyCount ≤ parts.length →
      ∃ i : Nat, (i : Int) = parts.length - proxyCount ∧ ∃ _ : i < parts.length,
        getClientIPFromRequest proxyCount r = some (TrimSpace parts[i])) ∧
    ((parts.length : Int) ≤ proxyCount →
      ∃ _ : 0 < parts.length,
        getClientIPFromRequest proxyCount r = some (TrimSpace parts[0])) := by
  have hlen : 0 < parts.length := hparts ▸ Split_length_pos _ _
  have key := getClientIP_trusted proxyCount r hpc hx
  rw [hparts] at key
  constructor
  · intro hle
    have hi : parts.length - proxyCount.toNat < parts.length := by omega
    refine ⟨parts.length - proxyCount.toNat, by omega, hi, ?_⟩
    rw [key, List.getElem?_eq_getElem hi]
    rfl
  · intro hle
    have h0 : parts.length - proxyCount.toNat = 0 := by omega
    refine ⟨hlen, ?_⟩
    rw [key, h0, List.getElem?_eq_getElem hlen]
    rfl

/-- Witness of C3: with two trusted proxies and three entries the middle one is chosen. -/
theorem trusted_proxy_entry_witness :
    getClientIPFromRequest 2 (forwardedRequest "1.1.1.1, 2.2.2.2 ,3.3.3.3" "203.0.113.7:54321")
      = some "2.2.2.2".toList := by
  obtain ⟨i, hi, hlt, h⟩ :=
    (trusted_proxy_entry 2 (forwardedRequest "1.1.1.1, 2.2.2.2 ,3.3.3.3" "203.0.113.7:54321")
      ["1.1.1.1".toList, " 2.2.2.2 ".toList, "3.3.3.3".toList]
      (by decide) (by decide) (by decide)).1 (by decide)
  have h1 : i = 1 := by
    simp only [List.length_cons, List.length_nil] at hi
    omega
  subst h1
  rw [h]
  rfl

/-- C4, at the failing input: for `X-Forwarded-For: 8.8.8.8, 10.255.255.255` the scan of
`getIPAdress` returns `10.255.255.255`, the rightmost entry, although that address falls
inside the private/reserved range table; the rightmost entry that is global unicast and
outside the table, the one the claim names, is `8.8.8.8`. The code stops at the end
bound of the block because `inRange` compares with the end bound strictly. -/
theorem getIPAdress_stops_at_end_bound :
    getIPAdress (forwardedRequest "8.8.8.8, 10.255.255.255" "203.0.113.7:54321")
      = some "10.255.255.255".toList ∧
    insideTable (ParseIP "10.255.255.255".toList) = true ∧
    publicIPOfHeaders "8.8.8.8, 10.255.255.255".toList [] = "8.8.8.8".toList := by
  decide

/-- C6, at the failing input: for `X-Forwarded-For: 10.255.255.255` the scan returns
`10.255.255.255`, although that address lies between the start bound and the end bound
of a block of the table (it is the end bound of `10.0.0.0` to `10.255.255.255`), because
`inRange` compares with the end bound strictly. -/
theorem getIPAdress_returns_end_bound :
    getIPAdress (forwardedRequest "10.255.255.255" "203.0.113.7:54321")
      = some "10.255.255.255".toList ∧
    (privateRanges.any fun rg =>
      decide (bytesCompare (ParseIP "10.255.255.255".toList) rg.start ≥ 0 ∧
        bytesCompare (ParseIP "10.255.255.255".toList) rg.end ≤ 0)) = true ∧
    isPrivateSubnet (ParseIP "10.255.255.255".toList) = false := by
  decide

/-- C7, at the failing input: without any header and with remote address
`203.0.113.7:54321`, `getClientIPFromRequest` returns `203.0.113.7:54321`, port included,
although `net.SplitHostPort` would split it into `203.0.113.7` and `54321`. -/
theorem getClientIP_keeps_port :
    getClientIPFromRequest 0 (directRequest "203.0.113.7:54321")
      = some "203.0.113.7:54321".toList ∧
    SplitHostPort "203.0.113.7:54321".toList = some ("203.0.113.7".toList, "54321".toList) := by
  decide

/-- C8 fails as stated: with one trusted proxy and `X-Forwarded-For: 1.1.1.1,` the
selected entry is the empty one after the comma, so the client IP is the empty string
although the remote address is `203.0.113.7:54321`. -/
theorem clientIP_empty_counterexample :
    ¬ (getClientIPFromRequest 1 (forwardedRequest "1.1.1.1," "203.0.113.7:54321") = some [] →
      (forwardedRequest "1.1.1.1," "203.0.113.7:54321").RemoteAddr = []) := by
  decide

/-- C8, amended: `getClientIPFromRequest` never panics, and when the trusted-proxy branch
does not apply (`proxyCount ≤ 0` or no `X-Forwarded-For` value) it returns the empty
string only if the remote address is empty. -/
theorem clientIP_empty_only_if_remote_empty (proxyCount : Int) (r : Request) :
    (∃ ip, getClientIPFromRequest proxyCount r = some ip) ∧
    (¬ (0 < proxyCount ∧ HeaderGet r.Header "X-Forwarded-For".toList ≠ []) →
      getClientIPFromRequest proxyCount r = some [] → r.RemoteAddr = []) := by
  refine ⟨getClientIP_total proxyCount r, ?_⟩
  intro hb h
  rw [getClientIP_untrusted proxyCount r hb] at h
  have hacc := getIPAdress_accepted r _ (getIPAdress_eq r)
  split at h
  · rename_i remoteIP port hs
    have he : remoteIP = [] := Option.some.inj h
    subst he
    have hp := ParseIP_of_empty_host _ _ hs
    rcases hacc with h0 | h1
    · rw [h0] at hs
      simp [SplitHostPort, LastIndexByte] at hs
    · unfold accepted at h1
      rw [hp] at h1
      simp [IsGlobalUnicast] at h1
  · split at h
    · exact Option.some.inj h
    · rename_i hne
      exact absurd (Option.some.inj h) hne

/-- Witness of C8, amended: no header and an empty remote address. -/
theorem clientIP_empty_only_if_remote_empty_witness :
    getClientIPFromRequest 0 (directRequest "") = some [] ∧
    (directRequest "").RemoteAddr = [] :=
  ⟨by decide,
    (clientIP_empty_only_if_remote_empty 0 (directRequest "")).2 (by decide) (by decide)⟩

/-- C10 fails as stated: for `X-Forwarded-For: 1.1.1.1, 2.2.2.2, 3.3.3.3` and one trusted
proxy the result is not `2.2.2.2`. -/
theorem one_proxy_counterexample :
    getClientIPFromRequest 1 (forwardedRequest "1.1.1.1, 2.2.2.2, 3.3.3.3" "203.0.113.7:54321")
      ≠ some "2.2.2.2".toList := by
  decide

/-- C10, amended: for `X-Forwarded-For: 1.1.1.1, 2.2.2.2, 3.3.3.3` and one trusted proxy,
`getClientIPFromRequest` returns `3.3.3.3`, the entry at index `3 - 1`. -/
theorem one_proxy_last_entry (r : Request)
    (h : HeaderGet r.Header "X-Forwarded-For".toList = "1.1.1.1, 2.2.2.2, 3.3.3.3".toList) :
    getClientIPFromRequest 1 r = some "3.3.3.3".toList := by
  rw [getClientIP_trusted 1 r (by decide) (by rw [h]; decide), h]
  decide

/-- Witness of C10, amended. -/
theorem one_proxy_last_entry_witness :
    getClientIPFromRequest 1 (forwardedRequest "1.1.1.1, 2.2.2.2, 3.3.3.3" "203.0.113.7:54321")
      = some "3.3.3.3".toList :=
  one_proxy_last_entry _ (by decide)

/-! ## Lemmas on the TTL store -/

theorem lookup_filter_self (k : Str) (l : List (Str × Item)) :
    (l.filter (fun e => e.1 ≠ k)).lookup k = none := by
  induction l with
  | nil => rfl
  | cons e es ih =>
    obtain ⟨k1, it⟩ := e
    rw [List.filter_cons]
    by_cases h : k1 = k
    · rw [if_neg (by simpa using h)]
      exact ih
    · rw [if_pos (by simpa using h), List.lookup_cons]
      have hk : (k == k1) = false := by simpa using fun h2 => h h2.symm
      rw [hk]
      exact ih

theorem lookup_filter_ne (k k2 : Str) (h : k2 ≠ k) (l : List (Str × Item)) :
    (l.filter (fun e => e.1 ≠ k)).lookup k2 = l.lookup k2 := by
  induction l with
  | nil => rfl
  | cons e es ih =>
    obtain ⟨k1, it⟩ := e
    rw [List.filter_cons]
    by_cases he : k1 = k
    · have hk : (k2 == k1) = false := by simpa [he] using h
      rw [if_neg (by simpa using he), List.lookup_cons, hk]
      exact ih
    · rw [if_pos (by simpa using he), List.lookup_cons, List.lookup_cons, ih]

theorem lookup_map_item (f : Item → Item) (k : Str) (l : List (Str × Item)) :
    (l.map (fun e => (e.1, f e.2))).lookup k = (l.lookup k).map f := by
  induction l with
  | nil => rfl
  | cons e es ih =>
    obtain ⟨k1, it⟩ := e
    rw [List.map_cons, List.lookup_cons, List.lookup_cons]
    cases k == k1
    · exact ih
    · rfl

theorem remaining_SetWithTTL_self (c : Cache) (k : Str) (data : Bool) (ttl : Int)
    (h : 0 < ttl) : (c.SetWithTTL k data ttl).remaining k = some ttl := by
  unfold Cache.remaining Cache.SetWithTTL
  simp [List.lookup_cons, Int.not_le.mpr h]

theorem remaining_SetWithTTL_ne (c : Cache) (k k2 : Str) (data : Bool) (ttl : Int)
    (h : k2 ≠ k) : (c.SetWithTTL k data ttl).remaining k2 = c.remaining k2 := by
  unfold Cache.remaining Cache.SetWithTTL
  have hk : (k2 == k) = false := by simpa using h
  simp only [List.lookup_cons, hk, lookup_filter_ne k k2 h]

theorem remaining_Remove_self (c : Cache) (k : Str) : (c.Remove k).remaining k = none := by
  unfold Cache.remaining Cache.Remove
  simp only [lookup_filter_self]

theorem remaining_Remove_ne (c : Cache) (k k2 : Str) (h : k2 ≠ k) :
    (c.Remove k).remaining k2 = c.remaining k2 := by
  unfold Cache.remaining Cache.Remove
  simp only [lookup_filter_ne k k2 h]

theorem remaining_Remove_none (c : Cache) (k k2 : Str) (h : c.remaining k2 = none) :
    (c.Remove k).remaining k2 = none := by
  by_cases hk : k2 = k
  · rw [hk]; exact remaining_Remove_self c k
  · rw [remaining_Remove_ne c k k2 hk]; exact h

/-- The decay of an entry that is present. -/
theorem remaining_elapse_some (c : Cache) (k : Str) (t d : Int) (h : c.remaining k = some t) :
    (c.elapse d).remaining k = if t - d ≤ 0 then none else some (t - d) := by
  unfold Cache.remaining at h
  unfold Cache.remaining Cache.elapse
  simp only [lookup_map_item (fun it => { it with remaining := it.remaining - d })]
  cases hl : c.items.lookup k with
  | none => rw [hl] at h; cases h
  | some it =>
    rw [hl] at h
    simp only [Option.map_some']
    by_cases hle : it.remaining ≤ 0
    · simp [hle] at h
    · simp only [hle, if_false, Option.some.injEq] at h
      rw [h]

/-- An entry that is absent stays absent as time passes. -/
theorem remaining_elapse_none (c : Cache) (k : Str) (d : Int) (hd : 0 ≤ d)
    (h : c.remaining k = none) : (c.elapse d).remaining k = none := by
  unfold Cache.remaining at h
  unfold Cache.remaining Cache.elapse
  simp only [lookup_map_item (fun it => { it with remaining := it.remaining - d })]
  cases hl : c.items.lookup k with
  | none => rfl
  | some it =>
    rw [hl] at h
    simp only [Option.map_some']
    by_cases hle : it.remaining ≤ 0
    · have h2 : it.remaining - d ≤ 0 := by omega
      simp [h2]
    · simp [hle] at h

/-- With touch disabled a lookup leaves the store as it is and reports the remaining
time of the entry. -/
theorem GetWithTTL_skip (c : Cache) (k : Str) (h : c.skipTTLExtension = true) :
    c.GetWithTTL k =
      (match c.items.lookup k with
        | none => none
        | some it => if it.remaining ≤ 0 then none else some (it.data, it.remaining), c) := by
  unfold Cache.GetWithTTL
  cases c.items.lookup k with
  | none => rfl
  | some it =>
    simp only [h, if_true]
    split <;> rfl

/-! ## Lemmas on the limiter -/

theorem limitByKey_skip (l : Limiter) (w : ResponseWriter) (key : Str)
    (h : l.cache.skipTTLExtension = true) :
    l.limitByKey w key =
      match l.cache.remaining key with
      | some t => (true, l, renderJSON w ⟨rateLimitMessage key t⟩ StatusTooManyRequests)
      | none => (false, l, w) := by
  unfold Limiter.limitByKey Cache.remaining
  rw [GetWithTTL_skip _ _ h]
  cases l.cache.items.lookup key with
  | none => rfl
  | some it =>
    by_cases hle : it.remaining ≤ 0
    · simp only [hle, if_true]
    · simp only [hle, if_false]

/-- The call of `ServeHTTP` for a request with a valid address, a positive cooldown and
touch disabled, by cases on the presence of the two keys. -/
theorem ServeHTTP_eq (readAddress : Request → Except ReadError Str) (l : Limiter)
    (w : ResponseWriter) (r : Request) (next : ResponseWriter → Request → ResponseWriter)
    (address clintIP : Str) (httl : 0 < l.ttl) (hskip : l.cache.skipTTLExtension = true)
    (haddr : readAddress r = .ok address)
    (hip : getClientIPFromRequest l.proxyCount r = some clintIP) :
    l.ServeHTTP readAddress w r next =
      match l.cache.remaining address with
      | some t =>
        some (l, renderJSON w ⟨rateLimitMessage address t⟩ StatusTooManyRequests)
      | none =>
        match l.cache.remaining clintIP with
        | some t =>
          some (l, renderJSON w ⟨rateLimitMessage clintIP t⟩ StatusTooManyRequests)
        | none =>
          some ({ l with cache :=
                  if (next w r).status = StatusOK then
                    (l.cache.SetWithTTL address true l.ttl).SetWithTTL clintIP true l.ttl
                  else
                    ((((l.cache.SetWithTTL address true l.ttl).SetWithTTL clintIP true
                      l.ttl).Remove address).Remove clintIP) },
                next w r) := by
  unfold Limiter.ServeHTTP
  simp only [haddr, hip, Int.not_le.mpr httl, if_false, limitByKey_skip l w address hskip]
  cases h1 : l.cache.remaining address with
  | some t => simp
  | none =>
    simp only [Bool.false_eq_true, if_false, limitByKey_skip l w clintIP hskip]
    cases h2 : l.cache.remaining clintIP with
    | some t => simp
    | none =>
      simp only [Bool.false_eq_true, if_false, ne_eq]
      by_cases hs : (next w r).status = StatusOK
      · simp [hs]
      · simp [hs]

/-- After the insertion of both keys the primary key has the whole cooldown left. -/
theorem stored_remaining_address (c : Cache) (address clintIP : Str) (ttl : Int)
    (h : 0 < ttl) :
    ((c.SetWithTTL address true ttl).SetWithTTL clintIP true ttl).remaining address
      = some ttl := by
  by_cases hk : address = clintIP
  · rw [hk]
    exact remaining_SetWithTTL_self _ _ _ _ h
  · rw [remaining_SetWithTTL_ne _ _ _ _ _ hk]
    exact remaining_SetWithTTL_self _ _ _ _ h

/-- After the insertion of both keys the secondary key has the whole cooldown left. -/
theorem stored_remaining_clintIP (c : Cache) (address clintIP : Str) (ttl : Int)
    (h : 0 < ttl) :
    ((c.SetWithTTL address true ttl).SetWithTTL clintIP true ttl).remaining clintIP
      = some ttl :=
  remaining_SetWithTTL_self _ _ _ _ h

/-- After the rollback the primary key is absent. -/
theorem rollback_remaining_address (c : Cache) (address clintIP : Str) :
    ((c.Remove address).Remove clintIP).remaining address = none :=
  remaining_Remove_none _ _ _ (remaining_Remove_self c address)

/-- After the rollback the secondary key is absent. -/
theorem rollback_remaining_clintIP (c : Cache) (address clintIP : Str) :
    ((c.Remove address).Remove clintIP).remaining clintIP = none :=
  remaining_Remove_self _ clintIP

/-- The call of `ServeHTTP` when both keys are absent: both keys are stored, `next` runs,
and the keys are removed again unless the status is 200. -/
theorem ServeHTTP_fresh (readAddress : Request → Except ReadError Str) (l : Limiter)
    (w : ResponseWriter) (r : Request) (next : ResponseWriter → Request → ResponseWriter)
    (address clintIP : Str) (httl : 0 < l.ttl) (hskip : l.cache.skipTTLExtension = true)
    (haddr : readAddress r = .ok address)
    (hip : getClientIPFromRequest l.proxyCount r = some clintIP)
    (h1 : l.cache.remaining address = none) (h2 : l.cache.remaining clintIP = none) :
    l.ServeHTTP readAddress w r next =
      some ({ l with cache :=
              if (next w r).status = StatusOK then
                (l.cache.SetWithTTL address true l.ttl).SetWithTTL clintIP true l.ttl
              else
                ((((l.cache.SetWithTTL address true l.ttl).SetWithTTL clintIP true
                  l.ttl).Remove address).Remove clintIP) },
            next w r) := by
  rw [ServeHTTP_eq readAddress l w r next address clintIP httl hskip haddr hip, h1]
  simp only [h2]

/-- The call of `ServeHTTP` when the primary key is present: a rejection, whatever `next`
and the secondary key are. -/
theorem ServeHTTP_hot_address (readAddress : Request → Except ReadError Str) (l : Limiter)
    (w : ResponseWriter) (r : Request) (next : ResponseWriter → Request → ResponseWriter)
    (address : Str) (t : Int) (httl : 0 < l.ttl) (hskip : l.cache.skipTTLExtension = true)
    (haddr : readAddress r = .ok address) (h1 : l.cache.remaining address = some t) :
    l.ServeHTTP readAddress w r next =
      some (l, renderJSON w ⟨rateLimitMessage address t⟩ StatusTooManyRequests) := by
  obtain ⟨clintIP, hip⟩ := getClientIP_total l.proxyCount r
  rw [ServeHTTP_eq readAddress l w r next address clintIP httl hskip haddr hip, h1]

/-- Touch is disabled in every limiter made by `NewLimiter`, and `ServeHTTP` and the
passage of time keep it disabled. -/
theorem limiter_skip_invariant :
    (∀ proxyCount ttl, (NewLimiter proxyCount ttl).cache.skipTTLExtension = true) ∧
    (∀ (l : Limiter) (d : Int), (l.elapse d).cache.skipTTLExtension
      = l.cache.skipTTLExtension) ∧
    (∀ readAddress (l : Limiter) w r next l1 w1,
      l.cache.skipTTLExtension = true →
      l.ServeHTTP readAddress w r next = some (l1, w1) →
      l1.cache.skipTTLExtension = true) := by
  refine ⟨fun _ _ => rfl, fun _ _ => rfl, ?_⟩
  intro readAddress l w r next l1 w1 hskip h
  cases haddr : readAddress r with
  | error e =>
    unfold Limiter.ServeHTTP at h
    rw [haddr] at h
    cases e with
    | malformed mr =>
      simp only [Option.some.injEq, Prod.mk.injEq] at h
      rw [← h.1]; exact hskip
    | other =>
      simp only [Option.some.injEq, Prod.mk.injEq] at h
      rw [← h.1]; exact hskip
  | ok address =>
    by_cases httl : 0 < l.ttl
    · obtain ⟨clintIP, hip⟩ := getClientIP_total l.proxyCount r
      rw [ServeHTTP_eq readAddress l w r next address clintIP httl hskip haddr hip] at h
      cases h1 : l.cache.remaining address with
      | some t =>
        rw [h1] at h
        simp only [Option.some.injEq, Prod.mk.injEq] at h
        rw [← h.1]; exact hskip
      | none =>
        rw [h1] at h
        cases h2 : l.cache.remaining clintIP with
        | some t =>
          rw [h2] at h
          simp only [Option.some.injEq, Prod.mk.injEq] at h
          rw [← h.1]; exact hskip
        | none =>
          rw [h2] at h
          simp only [Option.some.injEq, Prod.mk.injEq] at h
          rw [← h.1]
          by_cases hs : (next w r).status = StatusOK
          · simpa [hs, Cache.SetWithTTL] using hskip
          · simpa [hs, Cache.SetWithTTL, Cache.Remove] using hskip
    · unfold Limiter.ServeHTTP at h
      rw [haddr] at h
      simp only [Int.not_lt.mp httl, if_true, Option.some.injEq, Prod.mk.injEq] at h
      rw [← h.1]; exact hskip

/-- The handler of `/api/claim` answers 200 only when the transfer succeeds. -/
theorem handleClaim_status (readAddress : Request → Except ReadError Str)
    (Transfer : Str → Except Str Str) (w : ResponseWriter) (r : Request)
    (h : (handleClaim readAddress Transfer w r).status = StatusOK) :
    ∃ address txHash, Transfer address = .ok txHash := by
  unfold handleClaim at h
  by_cases hm : r.Method ≠ "POST".toList
  · rw [if_pos hm] at h
    have h404 : StatusNotFound ≠ StatusOK := by decide
    exact absurd h h404
  · rw [if_neg hm] at h
    simp only at h
    cases htx : Transfer (match readAddress r with
        | .ok a => a
        | .error _ => []) with
    | error err =>
      rw [htx] at h
      have h500 : StatusInternalServerError ≠ StatusOK := by decide
      exact absurd h h500
    | ok txHash => exact ⟨_, txHash, htx⟩

/-! ## The limiter: the claims -/

/-- C1: for a limiter with cooldown `ttl > 0` (touch disabled, as `NewLimiter` makes it),
any store and any identity pair (`address` read from the request, `clintIP` resolved from
it), `ServeHTTP` decides as follows. If `address` is present in the store, the answer is
429 with the remaining time of `address`, the store is unchanged and `next` is not run
(the result does not depend on it); this holds whether or not `clintIP` is present.
Otherwise, if `clintIP` is present, the answer is 429 with the remaining time of
`clintIP`, in the same way. Otherwise both keys are stored with the cooldown as their
time to live and `next` is run on the request. -/
theorem admission_decision (readAddress : Request → Except ReadError Str) (l : Limiter)
    (w : ResponseWriter) (r : Request) (next : ResponseWriter → Request → ResponseWriter)
    (address clintIP : Str) (httl : 0 < l.ttl) (hskip : l.cache.skipTTLExtension = true)
    (haddr : readAddress r = .ok address)
    (hip : getClientIPFromRequest l.proxyCount r = some clintIP) :
    (∀ t, l.cache.remaining address = some t →
      l.ServeHTTP readAddress w r next =
        some (l, renderJSON w ⟨rateLimitMessage address t⟩ StatusTooManyRequests)) ∧
    (l.cache.remaining address = none → ∀ t, l.cache.remaining clintIP = some t →
      l.ServeHTTP readAddress w r next =
        some (l, renderJSON w ⟨rateLimitMessage clintIP t⟩ StatusTooManyRequests)) ∧
    (l.cache.remaining address = none → l.cache.remaining clintIP = none →
      ((l.cache.SetWithTTL address true l.ttl).SetWithTTL clintIP true l.ttl).remaining
          address = some l.ttl ∧
      ((l.cache.SetWithTTL address true l.ttl).SetWithTTL clintIP true l.ttl).remaining
          clintIP = some l.ttl ∧
      l.ServeHTTP readAddress w r next =
        some ({ l with cache :=
                if (next w r).status = StatusOK then
                  (l.cache.SetWithTTL address true l.ttl).SetWithTTL clintIP true l.ttl
                else
                  ((((l.cache.SetWithTTL address true l.ttl).SetWithTTL clintIP true
                    l.ttl).Remove address).Remove clintIP) },
              next w r)) := by
  refine ⟨?_, ?_, ?_⟩
  · intro t h1
    exact ServeHTTP_hot_address readAddress l w r next address t httl hskip haddr h1
  · intro h1 t h2
    rw [ServeHTTP_eq readAddress l w r next address clintIP httl hskip haddr hip, h1]
    simp only [h2]
  · intro h1 h2
    exact ⟨stored_remaining_address _ _ _ _ httl, stored_remaining_clintIP _ _ _ _ httl,
      ServeHTTP_fresh readAddress l w r next address clintIP httl hskip haddr hip h1 h2⟩

/-- Witness of C1: a new limiter admits a first request from `203.0.113.7:54321`; after
it, a request from another peer with the same address is rejected on the primary key. -/
theorem admission_decision_witness :
    (exampleLimiter.ServeHTTP exampleReadAddress freshWriter
        (directRequest "203.0.113.7:54321") (handleClaim exampleReadAddress transferOk)).map
      (fun x => x.2.status) = some StatusOK ∧
    (exampleHotLimiter.ServeHTTP exampleReadAddress freshWriter
        (directRequest "198.51.100.9:40000") (handleClaim exampleReadAddress transferOk)).map
      (fun x => x.2.status) = some StatusTooManyRequests := by
  constructor
  · rw [((admission_decision exampleReadAddress exampleLimiter freshWriter
      (directRequest "203.0.113.7:54321") (handleClaim exampleReadAddress transferOk)
      exampleAddress "203.0.113.7:54321".toList
      (by decide) rfl rfl (by decide)).2.2 (by decide) (by decide)).2.2]
    rfl
  · rw [(admission_decision exampleReadAddress exampleHotLimiter freshWriter
      (directRequest "198.51.100.9:40000") (handleClaim exampleReadAddress transferOk)
      exampleAddress "198.51.100.9:40000".toList
      (by decide) rfl rfl (by decide)).1 (60 * Second) (by decide)]
    rfl

/-- C2: for a cooldown `ttl > 0` and an identity pair admitted from a store in which both
keys were absent, `next` is run; if it ends with a status other than 200, both keys are
absent from the store afterwards, so that a call with the same keys right after it runs
its `next` again instead of being rejected; if it ends with status 200, both keys stay in
the store, with the whole cooldown left. -/
theorem rollback_on_failure (readAddress : Request → Except ReadError Str) (l : Limiter)
    (w : ResponseWriter) (r : Request) (next : ResponseWriter → Request → ResponseWriter)
    (address clintIP : Str) (httl : 0 < l.ttl) (hskip : l.cache.skipTTLExtension = true)
    (haddr : readAddress r = .ok address)
    (hip : getClientIPFromRequest l.proxyCount r = some clintIP)
    (h1 : l.cache.remaining address = none) (h2 : l.cache.remaining clintIP = none) :
    ∃ l1, l.ServeHTTP readAddress w r next = some (l1, next w r) ∧
      ((next w r).status ≠ StatusOK →
        l1.cache.remaining address = none ∧ l1.cache.remaining clintIP = none ∧
        ∀ (w2 : ResponseWriter) (r2 : Request)
          (next2 : ResponseWriter → Request → ResponseWriter),
          readAddress r2 = .ok address →
          getClientIPFromRequest l1.proxyCount r2 = some clintIP →
          ∃ l2, l1.ServeHTTP readAddress w2 r2 next2 = some (l2, next2 w2 r2)) ∧
      ((next w r).status = StatusOK →
        l1.cache.remaining address = some l.ttl ∧
        l1.cache.remaining clintIP = some l.ttl) := by
  refine ⟨_, ServeHTTP_fresh readAddress l w r next address clintIP httl hskip haddr hip
    h1 h2, ?_, ?_⟩
  · intro hs
    simp only [hs, if_false]
    have ha := rollback_remaining_address
      ((l.cache.SetWithTTL address true l.ttl).SetWithTTL clintIP true l.ttl) address clintIP
    have hc := rollback_remaining_clintIP
      ((l.cache.SetWithTTL address true l.ttl).SetWithTTL clintIP true l.ttl) address clintIP
    refine ⟨ha, hc, ?_⟩
    intro w2 r2 next2 haddr2 hip2
    exact ⟨_, ServeHTTP_fresh readAddress _ w2 r2 next2 address clintIP httl hskip haddr2
      hip2 ha hc⟩
  · intro hs
    simp only [hs, if_true]
    exact ⟨stored_remaining_address _ _ _ _ httl, stored_remaining_clintIP _ _ _ _ httl⟩

/-- Witness of C2: the transfer fails, the handler answers 500 and both keys are absent
after the call. -/
theorem rollback_on_failure_witness :
    ∃ l1, exampleLimiter.ServeHTTP exampleReadAddress freshWriter
        (directRequest "203.0.113.7:54321") (handleClaim exampleReadAddress transferFails)
        = some (l1, handleClaim exampleReadAddress transferFails freshWriter
            (directRequest "203.0.113.7:54321")) ∧
      l1.cache.remaining exampleAddress = none ∧
      l1.cache.remaining "203.0.113.7:54321".toList = none := by
  obtain ⟨l1, h, hfail, _⟩ := rollback_on_failure exampleReadAddress exampleLimiter
    freshWriter (directRequest "203.0.113.7:54321")
    (handleClaim exampleReadAddress transferFails)
    exampleAddress "203.0.113.7:54321".toList
    (by decide) rfl rfl (by decide) (by decide) (by decide)
  exact ⟨l1, h, (hfail (by decide)).1, (hfail (by decide)).2.1⟩

/-- C5: with cooldown `T = ttl > 0` and a fresh key pair, the first call is admitted
(`next` is run); when `next` ends with status 200, a call with the same primary key after
a time `d < T` is rejected with 429 and the remaining time `T - d`, which is positive and
at most `T`; the rejected call leaves the limiter as it was, so the entry is not
refreshed: once `T` has elapsed since the first admission, with or without a rejected
call in between, a call with the same keys is admitted again. -/
theorem cooldown_window (readAddress : Request → Except ReadError Str) (l : Limiter)
    (w : ResponseWriter) (r : Request) (next : ResponseWriter → Request → ResponseWriter)
    (address clintIP : Str) (httl : 0 < l.ttl) (hskip : l.cache.skipTTLExtension = true)
    (haddr : readAddress r = .ok address)
    (hip : getClientIPFromRequest l.proxyCount r = some clintIP)
    (h1 : l.cache.remaining address = none) (h2 : l.cache.remaining clintIP = none)
    (hok : (next w r).status = StatusOK) :
    ∃ l1, l.ServeHTTP readAddress w r next = some (l1, next w r) ∧
      (∀ d : Int, 0 ≤ d → d < l.ttl →
        ∀ (w2 : ResponseWriter) (r2 : Request)
          (next2 : ResponseWriter → Request → ResponseWriter),
          readAddress r2 = .ok address →
          0 < l.ttl - d ∧ l.ttl - d ≤ l.ttl ∧
          (l1.elapse d).ServeHTTP readAddress w2 r2 next2 =
            some (l1.elapse d,
              renderJSON w2 ⟨rateLimitMessage address (l.ttl - d)⟩ StatusTooManyRequests) ∧
          ∀ d2 : Int, l.ttl ≤ d + d2 →
            ∀ (w3 : ResponseWriter) (next3 : ResponseWriter → Request → ResponseWriter),
              ∃ l3, ((l1.elapse d).elapse d2).ServeHTTP readAddress w3 r next3
                = some (l3, next3 w3 r)) ∧
      (∀ d : Int, l.ttl ≤ d →
        ∀ (w3 : ResponseWriter) (next3 : ResponseWriter → Request → ResponseWriter),
          ∃ l3, (l1.elapse d).ServeHTTP readAddress w3 r next3 = some (l3, next3 w3 r)) := by
  have hfresh := ServeHTTP_fresh readAddress l w r next address clintIP httl hskip haddr
    hip h1 h2
  simp only [hok, if_true] at hfresh
  have ha := stored_remaining_address l.cache address clintIP l.ttl httl
  have hc := stored_remaining_clintIP l.cache address clintIP l.ttl httl
  refine ⟨_, hfresh, ?_, ?_⟩
  · intro d hd0 hdT w2 r2 next2 haddr2
    have had : (((l.cache.SetWithTTL address true l.ttl).SetWithTTL clintIP true
        l.ttl).elapse d).remaining address = some (l.ttl - d) := by
      rw [remaining_elapse_some _ _ _ d ha, if_neg (by omega)]
    have hcd : (((l.cache.SetWithTTL address true l.ttl).SetWithTTL clintIP true
        l.ttl).elapse d).remaining clintIP = some (l.ttl - d) := by
      rw [remaining_elapse_some _ _ _ d hc, if_neg (by omega)]
    refine ⟨by omega, by omega, ?_, ?_⟩
    · exact ServeHTTP_hot_address readAddress _ w2 r2 next2 address (l.ttl - d) httl hskip
        haddr2 had
    · intro d2 hd2 w3 next3
      have ha2 : ((((l.cache.SetWithTTL address true l.ttl).SetWithTTL clintIP true
          l.ttl).elapse d).elapse d2).remaining address = none := by
        rw [remaining_elapse_some _ _ _ d2 had, if_pos (by omega)]
      have hc2 : ((((l.cache.SetWithTTL address true l.ttl).SetWithTTL clintIP true
          l.ttl).elapse d).elapse d2).remaining clintIP = none := by
        rw [remaining_elapse_some _ _ _ d2 hcd, if_pos (by omega)]
      exact ⟨_, ServeHTTP_fresh readAddress _ w3 r next3 address clintIP httl hskip haddr
        hip ha2 hc2⟩
  · intro d hd w3 next3
    have ha2 : (((l.cache.SetWithTTL address true l.ttl).SetWithTTL clintIP true
        l.ttl).elapse d).remaining address = none := by
      rw [remaining_elapse_some _ _ _ d ha, if_pos (by omega)]
    have hc2 : (((l.cache.SetWithTTL address true l.ttl).SetWithTTL clintIP true
        l.ttl).elapse d).remaining clintIP = none := by
      rw [remaining_elapse_some _ _ _ d hc, if_pos (by omega)]
    exact ⟨_, ServeHTTP_fresh readAddress _ w3 r next3 address clintIP httl hskip haddr
      hip ha2 hc2⟩

/-- Witness of C5: a first claim that succeeds, a second claim with the same address
from another peer 20 seconds later, rejected with 40 seconds left. -/
theorem cooldown_window_witness :
    ∃ l1, exampleLimiter.ServeHTTP exampleReadAddress freshWriter
        (directRequest "203.0.113.7:54321") (handleClaim exampleReadAddress transferOk)
        = some (l1, handleClaim exampleReadAddress transferOk freshWriter
            (directRequest "203.0.113.7:54321")) ∧
      (l1.elapse (20 * Second)).ServeHTTP exampleReadAddress freshWriter
        (directRequest "198.51.100.9:40000") (handleClaim exampleReadAddress transferOk)
        = some (l1.elapse (20 * Second),
            renderJSON freshWriter
              ⟨rateLimitMessage exampleAddress (60 * Second - 20 * Second)⟩ StatusTooManyRequests) := by
  obtain ⟨l1, h, hrej, _⟩ := cooldown_window exampleReadAddress exampleLimiter
    freshWriter (directRequest "203.0.113.7:54321")
    (handleClaim exampleReadAddress transferOk)
    exampleAddress "203.0.113.7:54321".toList
    (by decide) rfl rfl (by decide) (by decide) (by decide) (by decide)
  exact ⟨l1, h, (hrej (20 * Second) (by decide) (by decide) freshWriter
    (directRequest "198.51.100.9:40000") (handleClaim exampleReadAddress transferOk) rfl).2.2.1⟩

end Faucet
